import Mathlib

/-!
# go-queue: ticket admission handler

A shallow embedding of `main.go`: the static registries (`events`, `users`), the
constants `MaxPaymentSlot` and `PaymentTTL`, the helper `userExists`, the start-up
loop of `main` that seeds the stock counters, and the request handler
`buyTicketHandler`.

The Redis keyspace is represented by its four key families, indexed by the
identifiers that the handler formats into the key names:

* `tickets:stock:<event>`          an integer counter (absent or present),
* `queue:payment:<event>`          a sorted set, member to score,
* `queue:waiting:<event>`          a list,
* `user:status:<event>:<user>`     a string together with the TTL it was written with.

The key prefixes of the four families differ, and `tickets:stock:<event>`,
`queue:payment:<event>` and `queue:waiting:<event>` determine `<event>`, so counters,
payment sets and waiting lists of different events never share a key.

Each Redis command the handler issues is one function on the store.  A command
whose error the handler inspects (`Get`, `ZCard`, `Exec`) takes the outcome of the
command from a `Faults` record; a failed command leaves the store untouched.  The
commands whose result the handler discards (`RPush` and `Set` of the out-of-stock
branch) are applied as issued.

Durations are counted in seconds and `now` is `time.Now().Unix()`; as `PaymentTTL`
is a whole number of seconds, `time.Now().Add(PaymentTTL).Unix()` is
`now + PaymentTTL`.  Counters are integers: the handler decrements a counter only
after reading a value `> 0`, so the 64-bit range of `DECR` is never left.
-/

namespace GoQueue

/-! ## Configuration and static registries -/

/-- Constant `MaxPaymentSlot` of `main.go`. -/
def MaxPaymentSlot : Nat := 1000

/-- Constant `PaymentTTL` of `main.go`, five minutes, in seconds. -/
def PaymentTTL : Nat := 5 * 60

/-- Variable `events` of `main.go`: event identifier to total stock. -/
def events : List (String × Int) := [("1001", 1), ("2002", 20)]

/-- Variable `users` of `main.go`. -/
def users : List String := ["u1", "u2", "u3", "u4", "u5"]

/-- The package-level constants and registries the handler reads. -/
structure Config where
  maxPaymentSlot : Nat
  paymentTTL : Nat
  events : List (String × Int)
  users : List String

/-- The configuration that `main.go` is compiled with. -/
def sourceConfig : Config :=
  { maxPaymentSlot := MaxPaymentSlot, paymentTTL := PaymentTTL, events := events, users := users }

/-- Map index expression `events[eventID]` with the comma-ok form. -/
def eventLookup : List (String × Int) → String → Option Int
  | [], _ => none
  | (k, v) :: rest, eventID => if k = eventID then some v else eventLookup rest eventID

/-- Function `userExists` of `main.go`: linear scan of the user list. -/
def userExists : List String → String → Bool
  | [], _ => false
  | u :: rest, userID => if u = userID then true else userExists rest userID

/-! ## The store -/

/-- A Redis sorted set: members are unique, each carries a score. -/
structure ZSet where
  entries : List (String × Int)
  nodup : (entries.map Prod.fst).Nodup

/-- The empty sorted set (an absent key). -/
def ZSet.empty : ZSet := ⟨[], List.nodup_nil⟩

/-- Command `ZCARD`. -/
def ZSet.card (z : ZSet) : Nat := z.entries.length

/-- Score of a member, if it is one. -/
def ZSet.score (z : ZSet) (m : String) : Option Int :=
  (z.entries.find? (fun p => p.1 = m)).map Prod.snd

/-- Membership test on a sorted set. -/
def ZSet.mem (z : ZSet) (m : String) : Bool := decide (m ∈ z.entries.map Prod.fst)

/-- Command `ZADD key score member`: a new member is inserted, an existing member
only has its score replaced. -/
def ZSet.add (z : ZSet) (m : String) (sc : Int) : ZSet :=
  ⟨(z.entries.filter (fun p => p.1 ≠ m)) ++ [(m, sc)], by
    rw [List.map_append, List.nodup_append]
    refine ⟨?_, by simp, ?_⟩
    · exact List.Nodup.sublist (List.Sublist.map _ (List.filter_sublist z.entries)) z.nodup
    · intro a ha hb
      simp only [List.map_cons, List.map_nil, List.mem_singleton] at hb
      subst hb
      rw [List.mem_map] at ha
      obtain ⟨p, hp, hpa⟩ := ha
      rw [List.mem_filter] at hp
      have := hp.2
      simp [hpa] at this⟩

/-- The part of the Redis keyspace the program uses. -/
structure Store where
  stock : String → Option Int
  payment : String → ZSet
  waiting : String → List String
  status : String → String → Option (String × Nat)

/-- Errors of a `Get`: `redis.Nil` (key absent) or any other error. -/
inductive RedisErr where
  | nil
  | other
  deriving DecidableEq, Repr

/-- Outcome of each command whose error the handler checks: `true` means the
command fails with a store error. -/
structure Faults where
  get : Bool
  zcard : Bool
  exec : Bool
  deriving DecidableEq, Repr

/-- All commands succeed. -/
def noFaults : Faults := { get := false, zcard := false, exec := false }

/-- Call `rdb.Get(ctx, stockKey).Int()`: value and error.  A failed command and an
absent key both yield the zero value together with the error. -/
def rdbGetInt (s : Store) (eventID : String) (fails : Bool) : Int × Option RedisErr :=
  if fails then (0, some RedisErr.other)
  else
    match s.stock eventID with
    | none => (0, some RedisErr.nil)
    | some v => (v, none)

/-- Call `rdb.ZCard(ctx, paymentKey).Result()`. -/
def rdbZCard (s : Store) (eventID : String) (fails : Bool) : Option Nat :=
  if fails then none else some (s.payment eventID).card

/-- Command `RPUSH waitingKey userID`. -/
def rdbRPush (s : Store) (eventID userID : String) : Store :=
  { s with waiting := fun e => if e = eventID then s.waiting e ++ [userID] else s.waiting e }

/-- Command `SET userStatusKey value` with expiration `ttl` (0 for none). -/
def rdbSet (s : Store) (eventID userID value : String) (ttl : Nat) : Store :=
  { s with status := fun e u =>
      if e = eventID ∧ u = userID then some (value, ttl) else s.status e u }

/-- Command `ZADD paymentKey score member`. -/
def rdbZAdd (s : Store) (eventID : String) (score : Int) (member : String) : Store :=
  { s with payment := fun e =>
      if e = eventID then (s.payment e).add member score else s.payment e }

/-- Command `DECR stockKey`; an absent key counts as 0. -/
def rdbDecr (s : Store) (eventID : String) : Store :=
  { s with stock := fun e => if e = eventID then some ((s.stock e).getD 0 - 1) else s.stock e }

/-- Command `SET stockKey stock` issued by `main`. -/
def rdbSetStock (s : Store) (eventID : String) (stock : Int) : Store :=
  { s with stock := fun e => if e = eventID then some stock else s.stock e }

/-- The empty keyspace. -/
def emptyStore : Store :=
  { stock := fun _ => none, payment := fun _ => ZSet.empty, waiting := fun _ => [],
    status := fun _ _ => none }

/-- The start-up loop of `main`: one `Set` of the stock counter per registry entry. -/
def seedStock : List (String × Int) → Store → Store
  | [], s => s
  | (eventID, stock) :: rest, s => seedStock rest (rdbSetStock s eventID stock)

/-- The store after `main` has run its start-up loop on an empty keyspace. -/
def initStore (cfg : Config) : Store := seedStock cfg.events emptyStore

/-! ## The handler -/

/-- What `buyTicketHandler` writes with `c.JSON`. -/
inductive Response where
  | badRequest (error : String)
  | serverError (error : String)
  | waiting
  | payment (expireAt : Int) (paymentTTL : Nat)
  deriving DecidableEq, Repr

/-- HTTP status code of a response. -/
def Response.code : Response → Nat
  | .badRequest _ => 400
  | .serverError _ => 500
  | .waiting => 200
  | .payment _ _ => 200

/-- The `status` field of the JSON body, when there is one. -/
def Response.status : Response → Option String
  | .waiting => some "waiting"
  | .payment _ _ => some "payment"
  | _ => none

/-- The transaction of the payment branch: `ZAdd`, `Set`, `Decr`. -/
def txPayment (cfg : Config) (s : Store) (eventID userID : String) (expireAt : Int) : Store :=
  rdbDecr (rdbSet (rdbZAdd s eventID expireAt userID) eventID userID "payment" cfg.paymentTTL)
    eventID

/-- The transaction of the waiting branch: `RPush`, `Set`. -/
def txWaiting (s : Store) (eventID userID : String) : Store :=
  rdbSet (rdbRPush s eventID userID) eventID userID "waiting" 0

/-- Function `buyTicketHandler` of `main.go`. -/
def buyTicketHandler (cfg : Config) (now : Int) (f : Faults) (eventID userID : String)
    (s : Store) : Response × Store :=
  match eventLookup cfg.events eventID with
  | none => (Response.badRequest "event not found", s)
  | some _ =>
    if userExists cfg.users userID = false then (Response.badRequest "user not found", s)
    else
      let r := rdbGetInt s eventID f.get
      if r.2 = some RedisErr.nil ∨ r.1 ≤ 0 then
        (Response.waiting, rdbSet (rdbRPush s eventID userID) eventID userID "waiting" 0)
      else if r.2 ≠ none then (Response.serverError "redis error", s)
      else
        match rdbZCard s eventID f.zcard with
        | none => (Response.serverError "redis error", s)
        | some paymentCount =>
          if paymentCount < cfg.maxPaymentSlot then
            let expireAt := now + cfg.paymentTTL
            if f.exec then (Response.serverError "transaction failed", s)
            else (Response.payment expireAt cfg.paymentTTL,
                  txPayment cfg s eventID userID expireAt)
          else
            if f.exec then (Response.serverError "transaction failed", s)
            else (Response.waiting, txWaiting s eventID userID)

/-- One request: path parameters, the clock and the store outcomes it meets. -/
structure Call where
  eventID : String
  userID : String
  now : Int
  faults : Faults

/-- Requests served one after another. -/
def runCalls (cfg : Config) : List Call → Store → Store
  | [], s => s
  | c :: rest, s => runCalls cfg rest (buyTicketHandler cfg c.now c.faults c.eventID c.userID s).2

/-- A `NotFound` failure: one of the two 400 responses of the validation steps. -/
def Response.isNotFound (r : Response) : Prop :=
  r = Response.badRequest "event not found" ∨ r = Response.badRequest "user not found"

/-- The pair that identifies whose request a call is. -/
def Call.key (c : Call) : String × String := (c.eventID, c.userID)

/-- Two requests for the same event and user, the second served immediately after
the first: the two outcomes. -/
def requestTwice (cfg : Config) (now₁ now₂ : Int) (f₁ f₂ : Faults) (eventID userID : String)
    (s : Store) : (Response × Store) × (Response × Store) :=
  let first := buyTicketHandler cfg now₁ f₁ eventID userID s
  (first, buyTicketHandler cfg now₂ f₂ eventID userID first.2)

/-! ## Interleaved execution

Between two store commands a handler keeps only its position in the code; every
Redis command (a `MULTI`/`EXEC` transaction included) is executed by the server as
one indivisible step.  `stepHandler` runs a handler up to and including its next
store command. -/

/-- Position of a running handler: the store command it will issue next. -/
inductive Pc where
  | start
  | waitRPush
  | waitSet
  | zcard
  | execPayment
  | execWaiting
  | done (r : Response)
  deriving DecidableEq, Repr

/-- One store command of `buyTicketHandler`, with the local code around it. -/
def stepHandler (cfg : Config) (now : Int) (f : Faults) (eventID userID : String) :
    Pc → Store → Pc × Store
  | Pc.start, s =>
    match eventLookup cfg.events eventID with
    | none => (Pc.done (Response.badRequest "event not found"), s)
    | some _ =>
      if userExists cfg.users userID = false then
        (Pc.done (Response.badRequest "user not found"), s)
      else
        let r := rdbGetInt s eventID f.get
        if r.2 = some RedisErr.nil ∨ r.1 ≤ 0 then (Pc.waitRPush, s)
        else if r.2 ≠ none then (Pc.done (Response.serverError "redis error"), s)
        else (Pc.zcard, s)
  | Pc.waitRPush, s => (Pc.waitSet, rdbRPush s eventID userID)
  | Pc.waitSet, s => (Pc.done Response.waiting, rdbSet s eventID userID "waiting" 0)
  | Pc.zcard, s =>
    match rdbZCard s eventID f.zcard with
    | none => (Pc.done (Response.serverError "redis error"), s)
    | some paymentCount =>
      if paymentCount < cfg.maxPaymentSlot then (Pc.execPayment, s) else (Pc.execWaiting, s)
  | Pc.execPayment, s =>
    if f.exec then (Pc.done (Response.serverError "transaction failed"), s)
    else (Pc.done (Response.payment (now + cfg.paymentTTL) cfg.paymentTTL),
          txPayment cfg s eventID userID (now + cfg.paymentTTL))
  | Pc.execWaiting, s =>
    if f.exec then (Pc.done (Response.serverError "transaction failed"), s)
    else (Pc.done Response.waiting, txWaiting s eventID userID)
  | Pc.done r, s => (Pc.done r, s)

/-- A handler running alone for `n` store commands. -/
def runSolo (cfg : Config) (c : Call) : Nat → Pc × Store → Pc × Store
  | 0, st => st
  | n + 1, st => runSolo cfg c n (stepHandler cfg c.now c.faults c.eventID c.userID st.1 st.2)

/-- Two handlers in flight on one store. -/
structure Sys where
  pcA : Pc
  pcB : Pc
  store : Store

/-- The next store command of the first (`false`) or second (`true`) handler. -/
def stepSys (cfg : Config) (a b : Call) (who : Bool) (st : Sys) : Sys :=
  if who then
    let r := stepHandler cfg b.now b.faults b.eventID b.userID st.pcB st.store
    { st with pcB := r.1, store := r.2 }
  else
    let r := stepHandler cfg a.now a.faults a.eventID a.userID st.pcA st.store
    { st with pcA := r.1, store := r.2 }

/-- Execution of a schedule: which handler issues each successive store command. -/
def runSchedule (cfg : Config) (a b : Call) : List Bool → Sys → Sys
  | [], st => st
  | who :: rest, st => runSchedule cfg a b rest (stepSys cfg a b who st)

/-! ## Lemmas on the store commands -/

theorem ZSet.score_add_self (z : ZSet) (m : String) (sc : Int) :
    (z.add m sc).score m = some sc := by
  have h : List.find? (fun p : String × Int => decide (p.1 = m))
      (List.filter (fun p => decide (p.1 ≠ m)) z.entries) = none := by
    rw [List.find?_eq_none]
    intro p hp
    rw [List.mem_filter] at hp
    simpa using hp.2
  simp [ZSet.score, ZSet.add, List.find?_append, h]

theorem ZSet.card_add_le (z : ZSet) (m : String) (sc : Int) :
    (z.add m sc).card ≤ z.card + 1 := by
  simp only [ZSet.card, ZSet.add, List.length_append, List.length_singleton]
  exact Nat.add_le_add_right (List.length_filter_le _ _) 1

theorem ZSet.card_add_of_not_mem (z : ZSet) (m : String) (sc : Int) (h : z.mem m = false) :
    (z.add m sc).card = z.card + 1 := by
  have hf : List.filter (fun p : String × Int => decide (p.1 ≠ m)) z.entries = z.entries := by
    rw [List.filter_eq_self]
    intro p hp
    have hm : ¬ m ∈ z.entries.map Prod.fst := by
      simpa [ZSet.mem] using h
    have : p.1 ≠ m := by
      intro hpm
      exact hm (hpm ▸ List.mem_map_of_mem Prod.fst hp)
    simpa using this
  show (List.filter (fun p : String × Int => decide (p.1 ≠ m)) z.entries ++ [(m, sc)]).length
    = z.entries.length + 1
  rw [hf, List.length_append, List.length_singleton]

theorem ZSet.mem_add (z : ZSet) (m m' : String) (sc : Int) :
    (z.add m sc).mem m' = true ↔ (m' = m ∨ z.mem m' = true) := by
  simp only [ZSet.mem, ZSet.add, decide_eq_true_eq, List.map_append, List.mem_append,
    List.mem_map, List.mem_filter, List.map_cons, List.map_nil, List.mem_singleton]
  constructor
  · rintro (⟨p, ⟨hp, _⟩, rfl⟩ | h)
    · exact Or.inr ⟨p, hp, rfl⟩
    · exact Or.inl h
  · rintro (h | ⟨p, hp, rfl⟩)
    · exact Or.inr h
    · by_cases hpm : p.1 = m
      · exact Or.inr hpm
      · exact Or.inl ⟨p, ⟨hp, by simpa using hpm⟩, rfl⟩

theorem ZSet.card_add_of_mem (z : ZSet) (m : String) (sc : Int) (h : z.mem m = true) :
    (z.add m sc).card = z.card := by
  have key : ∀ l : List (String × Int), (l.map Prod.fst).Nodup → m ∈ l.map Prod.fst →
      (l.filter (fun p => decide (p.1 ≠ m))).length + 1 = l.length := by
    intro l
    induction l with
    | nil => intro _ hm; simp at hm
    | cons p l ih =>
      intro hnd hm
      rw [List.map_cons, List.nodup_cons] at hnd
      by_cases hp : p.1 = m
      · have hnot : m ∉ l.map Prod.fst := hp ▸ hnd.1
        have hf : List.filter (fun p : String × Int => decide (p.1 ≠ m)) l = l := by
          rw [List.filter_eq_self]
          intro q hq
          have : q.1 ≠ m := fun hqm => hnot (hqm ▸ List.mem_map_of_mem Prod.fst hq)
          simpa using this
        have hdrop : List.filter (fun p : String × Int => decide (p.1 ≠ m)) (p :: l)
            = List.filter (fun p : String × Int => decide (p.1 ≠ m)) l := by
          apply List.filter_cons_of_neg
          simp [hp]
        rw [hdrop, hf, List.length_cons]
      · have hm2 : m ∈ l.map Prod.fst := by
          rw [List.map_cons, List.mem_cons] at hm
          rcases hm with h0 | h0
          · exact absurd h0.symm hp
          · exact h0
        have hkeep : List.filter (fun p : String × Int => decide (p.1 ≠ m)) (p :: l)
            = p :: List.filter (fun p : String × Int => decide (p.1 ≠ m)) l := by
          apply List.filter_cons_of_pos
          simpa using hp
        rw [hkeep, List.length_cons, List.length_cons, ih hnd.2 hm2]
  have hm : m ∈ z.entries.map Prod.fst := by simpa [ZSet.mem] using h
  show (List.filter (fun p : String × Int => decide (p.1 ≠ m)) z.entries ++ [(m, sc)]).length
    = z.entries.length
  rw [List.length_append, List.length_singleton]
  exact key z.entries z.nodup hm

/-! ## Effect of one request on the store -/

theorem txWaiting_stock (s : Store) (e u : String) : (txWaiting s e u).stock = s.stock := rfl

theorem txWaiting_payment (s : Store) (e u : String) : (txWaiting s e u).payment = s.payment :=
  rfl

theorem txWaiting_waiting (s : Store) (e u e' : String) :
    (txWaiting s e u).waiting e' = if e' = e then s.waiting e' ++ [u] else s.waiting e' := rfl

theorem txPayment_stock (cfg : Config) (s : Store) (e u : String) (x : Int) (e' : String) :
    (txPayment cfg s e u x).stock e'
      = if e' = e then some ((s.stock e').getD 0 - 1) else s.stock e' := rfl

theorem txPayment_payment (cfg : Config) (s : Store) (e u : String) (x : Int) (e' : String) :
    (txPayment cfg s e u x).payment e'
      = if e' = e then (s.payment e').add u x else s.payment e' := rfl

theorem txPayment_waiting (cfg : Config) (s : Store) (e u : String) (x : Int) :
    (txPayment cfg s e u x).waiting = s.waiting := rfl

/-- The three possible effects of a request on the store: none, the waiting
transaction, or the payment transaction; the last one only after a stock read
`v > 0` and a cardinality read below the capacity. -/
theorem buyTicketHandler_store_cases (cfg : Config) (now : Int) (f : Faults)
    (eventID userID : String) (s : Store) :
    (buyTicketHandler cfg now f eventID userID s).2 = s ∨
    (buyTicketHandler cfg now f eventID userID s).2 = txWaiting s eventID userID ∨
    (∃ v, s.stock eventID = some v ∧ 0 < v ∧
      (s.payment eventID).card < cfg.maxPaymentSlot ∧
      (buyTicketHandler cfg now f eventID userID s).2
        = txPayment cfg s eventID userID (now + cfg.paymentTTL)) := by
  cases hE : eventLookup cfg.events eventID with
  | none => simp [buyTicketHandler, hE]
  | some t =>
    cases hU : userExists cfg.users userID with
    | false => simp [buyTicketHandler, hE, hU]
    | true =>
      simp only [buyTicketHandler, hE, hU, Bool.true_eq_false, if_false]
      by_cases h1 : (rdbGetInt s eventID f.get).2 = some RedisErr.nil
          ∨ (rdbGetInt s eventID f.get).1 ≤ 0
      · rw [if_pos h1]
        exact Or.inr (Or.inl rfl)
      · by_cases h2 : (rdbGetInt s eventID f.get).2 ≠ none
        · simp [h1, h2]
        · cases hz : rdbZCard s eventID f.zcard with
          | none => simp [h1, h2]
          | some n =>
            by_cases h3 : n < cfg.maxPaymentSlot
            · cases hx : f.exec with
              | true => simp [h1, h2, h3]
              | false =>
                right; right
                have hg : f.get = false := by
                  cases hget : f.get with
                  | false => rfl
                  | true => simp [rdbGetInt, hget] at h1
                have hzc : f.zcard = false := by
                  cases hzf : f.zcard with
                  | false => rfl
                  | true => simp [rdbZCard, hzf] at hz
                cases hst : s.stock eventID with
                | none => simp [rdbGetInt, hg, hst] at h1
                | some v =>
                  have hv : 0 < v := by
                    simp [rdbGetInt, hg, hst] at h1
                    exact h1
                  have hn : (s.payment eventID).card = n := by
                    simpa [rdbZCard, hzc] using hz
                  refine ⟨v, rfl, hv, hn ▸ h3, ?_⟩
                  simp [h1, h2, h3]
            · cases hx : f.exec with
              | true => simp [h1, h2, h3]
              | false =>
                right; left
                simp [h1, h2, h3]

/-! ## Sequences of requests -/

theorem eventLookup_eq_none (l : List (String × Int)) (e : String)
    (h : e ∉ l.map Prod.fst) : eventLookup l e = none := by
  induction l with
  | nil => rfl
  | cons p l ih =>
    obtain ⟨k, v⟩ := p
    rw [List.map_cons, List.mem_cons, not_or] at h
    have hk : ¬ k = e := fun hke => h.1 hke.symm
    simp [eventLookup, hk, ih h.2]

theorem seedStock_stock (l : List (String × Int)) (hnd : (l.map Prod.fst).Nodup) (s : Store)
    (e : String) :
    (seedStock l s).stock e = (eventLookup l e).orElse (fun _ => s.stock e) := by
  induction l generalizing s with
  | nil => rfl
  | cons p l ih =>
    obtain ⟨k, v⟩ := p
    rw [List.map_cons, List.nodup_cons] at hnd
    simp only [seedStock, eventLookup]
    rw [ih hnd.2]
    by_cases hk : k = e
    · subst hk
      simp [eventLookup_eq_none l k hnd.1, rdbSetStock]
    · have hek : ¬ e = k := fun h => hk h.symm
      simp [hk, hek, rdbSetStock]

theorem seedStock_payment (l : List (String × Int)) (s : Store) :
    (seedStock l s).payment = s.payment := by
  induction l generalizing s with
  | nil => rfl
  | cons p l ih =>
    obtain ⟨k, v⟩ := p
    simp only [seedStock]
    rw [ih]
    rfl

theorem seedStock_nonneg (l : List (String × Int)) (hl : ∀ p ∈ l, 0 ≤ p.2) (s : Store)
    (hs : ∀ e v, s.stock e = some v → 0 ≤ v) :
    ∀ e v, (seedStock l s).stock e = some v → 0 ≤ v := by
  induction l generalizing s with
  | nil => exact hs
  | cons p l ih =>
    obtain ⟨k, t⟩ := p
    simp only [seedStock]
    apply ih (fun q hq => hl q (List.mem_cons_of_mem _ hq))
    intro e v hev
    by_cases he : e = k
    · have : t = v := by simpa [rdbSetStock, he] using hev
      exact this ▸ hl (k, t) (List.mem_cons_self _ _)
    · exact hs e v (by simpa [rdbSetStock, he] using hev)

theorem eventLookup_eq_none_iff (l : List (String × Int)) (e : String) :
    eventLookup l e = none ↔ e ∉ l.map Prod.fst := by
  induction l with
  | nil => simp [eventLookup]
  | cons p l ih =>
    obtain ⟨k, v⟩ := p
    by_cases hk : k = e
    · simp [eventLookup, hk]
    · have hek : ¬ e = k := fun h => hk h.symm
      simp [eventLookup, hk, hek, ih]

theorem userExists_eq_false_iff (l : List String) (u : String) :
    userExists l u = false ↔ u ∉ l := by
  induction l with
  | nil => simp [userExists]
  | cons w l ih =>
    by_cases hw : w = u
    · simp [userExists, hw]
    · have huw : ¬ u = w := fun h => hw h.symm
      simp [userExists, hw, huw, ih]

/-! ## Single requests -/

/-- C1: for a known event and user, with all store commands succeeding, a stock
counter reading `v > 0` and fewer than `MaxPaymentSlot` members in the payment set,
the handler answers `payment` with `expire_at = now + PaymentTTL` and `paymentTTL = 300`;
afterwards the user is in the payment set with that score, the stock counter is
`v - 1`, the user status is `payment` and the waiting lists are unchanged. -/
theorem requestTicket_payment (cfg : Config) (now : Int) (f : Faults) (eventID userID : String)
    (s : Store) (total v : Int)
    (hslot : cfg.maxPaymentSlot = MaxPaymentSlot) (httl : cfg.paymentTTL = PaymentTTL)
    (hE : eventLookup cfg.events eventID = some total)
    (hU : userExists cfg.users userID = true)
    (hf : f = noFaults)
    (hstock : s.stock eventID = some v) (hv : 0 < v)
    (hcard : (s.payment eventID).card < MaxPaymentSlot) :
    (buyTicketHandler cfg now f eventID userID s).1 = Response.payment (now + PaymentTTL) 300 ∧
    (buyTicketHandler cfg now f eventID userID s).1.status = some "payment" ∧
    ((buyTicketHandler cfg now f eventID userID s).2.payment eventID).mem userID = true ∧
    ((buyTicketHandler cfg now f eventID userID s).2.payment eventID).score userID
      = some (now + PaymentTTL) ∧
    (buyTicketHandler cfg now f eventID userID s).2.stock eventID = some (v - 1) ∧
    ((buyTicketHandler cfg now f eventID userID s).2.status eventID userID).map Prod.fst
      = some "payment" ∧
    (buyTicketHandler cfg now f eventID userID s).2.waiting = s.waiting := by
  subst hf
  have hnv : ¬ v ≤ 0 := not_le.mpr hv
  have hc : (s.payment eventID).card < cfg.maxPaymentSlot := hslot ▸ hcard
  have hout : buyTicketHandler cfg now noFaults eventID userID s
      = (Response.payment (now + PaymentTTL) 300,
         txPayment cfg s eventID userID (now + PaymentTTL)) := by
    simp [buyTicketHandler, hE, hU, rdbGetInt, rdbZCard, noFaults, hstock, hnv, hc, httl,
      PaymentTTL]
  rw [hout]
  refine ⟨rfl, rfl, ?_, ?_, ?_, ?_, rfl⟩
  · simp [txPayment, rdbDecr, rdbSet, rdbZAdd, ZSet.mem_add]
  · simp [txPayment, rdbDecr, rdbSet, rdbZAdd, ZSet.score_add_self]
  · simp [txPayment, rdbDecr, rdbSet, rdbZAdd, hstock]
  · simp [txPayment, rdbDecr, rdbSet, rdbZAdd]

/-- Instance of C1: the first request of `u1` for event `1001` on the initial store. -/
theorem requestTicket_payment_witness :
    (buyTicketHandler sourceConfig 100 noFaults "1001" "u1" (initStore sourceConfig)).1
      = Response.payment (100 + PaymentTTL) 300 ∧
    (buyTicketHandler sourceConfig 100 noFaults "1001" "u1" (initStore sourceConfig)).2.stock
      "1001" = some (1 - 1) := by
  have h := requestTicket_payment sourceConfig 100 noFaults "1001" "u1" (initStore sourceConfig)
    1 1 rfl rfl (by decide) (by decide) rfl (by decide) (by decide) (by decide)
  exact ⟨h.1, h.2.2.2.2.1⟩

/-- C2: for a known event and user, when the stock counter is absent or holds a
value `<= 0`, the handler answers `waiting`, appends the user at the tail of the
event's waiting list, writes the status `waiting`, and leaves every stock counter
and every payment set as it was. -/
theorem requestTicket_no_stock (cfg : Config) (now : Int) (f : Faults) (eventID userID : String)
    (s : Store) (total : Int)
    (hE : eventLookup cfg.events eventID = some total)
    (hU : userExists cfg.users userID = true)
    (hstock : s.stock eventID = none ∨ ∃ v, s.stock eventID = some v ∧ v ≤ 0) :
    (buyTicketHandler cfg now f eventID userID s).1 = Response.waiting ∧
    (buyTicketHandler cfg now f eventID userID s).1.status = some "waiting" ∧
    (buyTicketHandler cfg now f eventID userID s).2.waiting eventID
      = s.waiting eventID ++ [userID] ∧
    (∀ e, e ≠ eventID →
      (buyTicketHandler cfg now f eventID userID s).2.waiting e = s.waiting e) ∧
    ((buyTicketHandler cfg now f eventID userID s).2.status eventID userID).map Prod.fst
      = some "waiting" ∧
    (buyTicketHandler cfg now f eventID userID s).2.stock = s.stock ∧
    (buyTicketHandler cfg now f eventID userID s).2.payment = s.payment := by
  have hbranch : (rdbGetInt s eventID f.get).2 = some RedisErr.nil
      ∨ (rdbGetInt s eventID f.get).1 ≤ 0 := by
    unfold rdbGetInt
    cases f.get with
    | true => exact Or.inr (le_refl 0)
    | false =>
      rcases hstock with h | ⟨v, h, hv⟩
      · simp [h]
      · simp [h, hv]
  have hout : buyTicketHandler cfg now f eventID userID s
      = (Response.waiting, rdbSet (rdbRPush s eventID userID) eventID userID "waiting" 0) := by
    simp only [buyTicketHandler, hE, hU, Bool.true_eq_false, if_false, if_pos hbranch]
  rw [hout]
  refine ⟨rfl, rfl, ?_, ?_, ?_, rfl, rfl⟩
  · simp [rdbSet, rdbRPush]
  · intro e he
    simp [rdbSet, rdbRPush, he]
  · simp [rdbSet]

/-- Instance of C2: a request of `u2` for event `1001` once its counter reads 0. -/
theorem requestTicket_no_stock_witness :
    (buyTicketHandler sourceConfig 7 noFaults "1001" "u2"
        (rdbDecr (initStore sourceConfig) "1001")).1 = Response.waiting ∧
    (buyTicketHandler sourceConfig 7 noFaults "1001" "u2"
        (rdbDecr (initStore sourceConfig) "1001")).2.waiting "1001"
      = (rdbDecr (initStore sourceConfig) "1001").waiting "1001" ++ ["u2"] := by
  have h := requestTicket_no_stock sourceConfig 7 noFaults "1001" "u2"
    (rdbDecr (initStore sourceConfig) "1001") 1 (by decide) (by decide)
    (Or.inr ⟨0, by decide, by decide⟩)
  exact ⟨h.1, h.2.2.1⟩

/-- C3: for a known event and user, with all store commands succeeding and a stock
counter reading `v > 0`, when the payment set already has at least
`maxPaymentSlot` members (always so when `maxPaymentSlot = 0`) the handler answers
`waiting`, which is neither `payment` nor an error response, appends the user at
the tail of the waiting list, writes the status `waiting`, and leaves every stock
counter and every payment set as it was. -/
theorem requestTicket_slots_full (cfg : Config) (now : Int) (f : Faults)
    (eventID userID : String) (s : Store) (total v : Int)
    (hE : eventLookup cfg.events eventID = some total)
    (hU : userExists cfg.users userID = true)
    (hf : f = noFaults)
    (hstock : s.stock eventID = some v) (hv : 0 < v)
    (hfull : cfg.maxPaymentSlot ≤ (s.payment eventID).card ∨ cfg.maxPaymentSlot = 0) :
    (buyTicketHandler cfg now f eventID userID s).1 = Response.waiting ∧
    (buyTicketHandler cfg now f eventID userID s).1.code = 200 ∧
    (buyTicketHandler cfg now f eventID userID s).1.status = some "waiting" ∧
    (buyTicketHandler cfg now f eventID userID s).2.waiting eventID
      = s.waiting eventID ++ [userID] ∧
    ((buyTicketHandler cfg now f eventID userID s).2.status eventID userID).map Prod.fst
      = some "waiting" ∧
    (buyTicketHandler cfg now f eventID userID s).2.stock = s.stock ∧
    (buyTicketHandler cfg now f eventID userID s).2.payment = s.payment := by
  subst hf
  have hnv : ¬ v ≤ 0 := not_le.mpr hv
  have hc : ¬ (s.payment eventID).card < cfg.maxPaymentSlot := by
    rcases hfull with h | h
    · exact not_lt.mpr h
    · rw [h]
      exact Nat.not_lt_zero _
  have hout : buyTicketHandler cfg now noFaults eventID userID s
      = (Response.waiting, txWaiting s eventID userID) := by
    simp [buyTicketHandler, hE, hU, rdbGetInt, rdbZCard, noFaults, hstock, hnv, hc]
  rw [hout]
  refine ⟨rfl, rfl, rfl, ?_, ?_, rfl, rfl⟩
  · simp [txWaiting, rdbSet, rdbRPush]
  · simp [txWaiting, rdbSet]

/-- Instance of C3: capacity 0, a request of `u3` for event `2002` with 20 units in stock. -/
theorem requestTicket_slots_full_witness :
    (buyTicketHandler { sourceConfig with maxPaymentSlot := 0 } 7 noFaults "2002" "u3"
        (initStore sourceConfig)).1 = Response.waiting ∧
    (buyTicketHandler { sourceConfig with maxPaymentSlot := 0 } 7 noFaults "2002" "u3"
        (initStore sourceConfig)).2.stock = (initStore sourceConfig).stock := by
  have h := requestTicket_slots_full { sourceConfig with maxPaymentSlot := 0 } 7 noFaults
    "2002" "u3" (initStore sourceConfig) 20 20 (by decide) (by decide) rfl (by decide)
    (by decide) (Or.inr rfl)
  exact ⟨h.1, h.2.2.2.2.2.1⟩

/-- C4: the handler answers with one of the two `NotFound` responses ("event not
found", "user not found") exactly when the event is not a key of the registry or
the user is not in the user list, which is when `userExists` returns false; and in
that case the store is returned as it was received. -/
theorem requestTicket_notFound_iff (cfg : Config) (now : Int) (f : Faults)
    (eventID userID : String) (s : Store) :
    ((buyTicketHandler cfg now f eventID userID s).1.isNotFound ↔
      (eventID ∉ cfg.events.map Prod.fst ∨ userID ∉ cfg.users)) ∧
    (userExists cfg.users userID = false ↔ userID ∉ cfg.users) ∧
    ((buyTicketHandler cfg now f eventID userID s).1.isNotFound →
      (buyTicketHandler cfg now f eventID userID s).2 = s) := by
  rw [← eventLookup_eq_none_iff, ← userExists_eq_false_iff]
  refine ⟨?_, Iff.rfl, ?_⟩ <;> unfold Response.isNotFound
  all_goals
    cases hE : eventLookup cfg.events eventID with
    | none => simp [buyTicketHandler, hE]
    | some t =>
      cases hU : userExists cfg.users userID with
      | false => simp [buyTicketHandler, hE, hU]
      | true =>
        simp only [buyTicketHandler, hE, hU, Bool.true_eq_false, if_false]
        by_cases h1 : (rdbGetInt s eventID f.get).2 = some RedisErr.nil
            ∨ (rdbGetInt s eventID f.get).1 ≤ 0
        · simp [h1]
        · by_cases h2 : (rdbGetInt s eventID f.get).2 ≠ none
          · simp [h1, h2]
          · cases hz : rdbZCard s eventID f.zcard with
            | none => simp [h1, h2]
            | some n =>
              by_cases h3 : n < cfg.maxPaymentSlot <;> cases hx : f.exec <;>
                simp [h1, h2, h3]

/-- C6 (behaviour of the code): when the read of the stock counter fails with a
store error other than `redis.Nil`, the handler takes the out-of-stock branch: it
answers 200 `waiting`, appends the user to the waiting list and writes the status
`waiting`; the 500 branch for that error is never taken. -/
theorem requestTicket_get_error (cfg : Config) (now : Int) (f : Faults)
    (eventID userID : String) (s : Store) (total : Int)
    (hE : eventLookup cfg.events eventID = some total)
    (hU : userExists cfg.users userID = true)
    (hget : f.get = true) :
    (rdbGetInt s eventID f.get) = (0, some RedisErr.other) ∧
    (buyTicketHandler cfg now f eventID userID s).1 = Response.waiting ∧
    (buyTicketHandler cfg now f eventID userID s).1.code = 200 ∧
    (buyTicketHandler cfg now f eventID userID s).2.waiting eventID
      = s.waiting eventID ++ [userID] ∧
    (buyTicketHandler cfg now f eventID userID s).2.status eventID userID
      = some ("waiting", 0) := by
  have hr : rdbGetInt s eventID f.get = (0, some RedisErr.other) := by
    simp [rdbGetInt, hget]
  have hout : buyTicketHandler cfg now f eventID userID s
      = (Response.waiting, rdbSet (rdbRPush s eventID userID) eventID userID "waiting" 0) := by
    simp [buyTicketHandler, hE, hU, hr]
  rw [hout]
  refine ⟨hr, rfl, rfl, ?_, ?_⟩
  · simp [rdbSet, rdbRPush]
  · simp [rdbSet]

/-- Instance of C6: the stock read of the first request of `u1` for event `1001` fails. -/
theorem requestTicket_get_error_witness :
    (buyTicketHandler sourceConfig 7 { get := true, zcard := false, exec := false } "1001" "u1"
        (initStore sourceConfig)).1 = Response.waiting ∧
    (buyTicketHandler sourceConfig 7 { get := true, zcard := false, exec := false } "1001" "u1"
        (initStore sourceConfig)).2.status "1001" "u1" = some ("waiting", 0) := by
  have h := requestTicket_get_error sourceConfig 7 { get := true, zcard := false, exec := false }
    "1001" "u1" (initStore sourceConfig) 1 (by decide) (by decide) rfl
  exact ⟨h.2.1, h.2.2.2.2⟩

/-- A handler that runs alone issues at most three store commands, and then has
answered and left the store exactly as `buyTicketHandler` does. -/
theorem runSolo_eq_buyTicketHandler (cfg : Config) (c : Call) (s : Store) :
    runSolo cfg c 3 (Pc.start, s)
      = (Pc.done (buyTicketHandler cfg c.now c.faults c.eventID c.userID s).1,
         (buyTicketHandler cfg c.now c.faults c.eventID c.userID s).2) := by
  simp only [runSolo, stepHandler, buyTicketHandler]
  cases hE : eventLookup cfg.events c.eventID with
  | none => simp [stepHandler]
  | some t =>
    cases hU : userExists cfg.users c.userID with
    | false => simp [stepHandler]
    | true =>
      simp only [Bool.true_eq_false, if_false]
      by_cases h1 : (rdbGetInt s c.eventID c.faults.get).2 = some RedisErr.nil
          ∨ (rdbGetInt s c.eventID c.faults.get).1 ≤ 0
      · simp [h1, stepHandler]
      · by_cases h2 : (rdbGetInt s c.eventID c.faults.get).2 ≠ none
        · simp [h1, h2, stepHandler]
        · cases hz : rdbZCard s c.eventID c.faults.zcard with
          | none => simp [h1, h2, stepHandler, hz]
          | some n =>
            by_cases h3 : n < cfg.maxPaymentSlot <;> cases hx : c.faults.exec <;>
              simp [h1, h2, stepHandler, hz, h3, hx]

/-! ## Invariants of sequential executions -/

theorem buyTicketHandler_card_le (cfg : Config) (now : Int) (f : Faults)
    (eventID userID : String) (s : Store)
    (h : ∀ e, (s.payment e).card ≤ cfg.maxPaymentSlot) :
    ∀ e, ((buyTicketHandler cfg now f eventID userID s).2.payment e).card
      ≤ cfg.maxPaymentSlot := by
  intro e
  rcases buyTicketHandler_store_cases cfg now f eventID userID s with
    hs | hs | ⟨v, _, _, hc, hs⟩
  · rw [hs]; exact h e
  · rw [hs, txWaiting_payment]; exact h e
  · rw [hs, txPayment_payment]
    by_cases he : e = eventID
    · subst he
      rw [if_pos rfl]
      exact Nat.le_trans (ZSet.card_add_le _ _ _) hc
    · rw [if_neg he]; exact h e

theorem runCalls_card_le (cfg : Config) (calls : List Call) (s : Store)
    (h : ∀ e, (s.payment e).card ≤ cfg.maxPaymentSlot) :
    ∀ e, ((runCalls cfg calls s).payment e).card ≤ cfg.maxPaymentSlot := by
  induction calls generalizing s with
  | nil => exact h
  | cons c rest ih =>
    exact ih _ (buyTicketHandler_card_le cfg c.now c.faults c.eventID c.userID s h)

/-- C7: in every store reached from the initial store by requests served one
after another, each event's payment set has at most `maxPaymentSlot` members; for
the compiled configuration that is at most `MaxPaymentSlot` = 1000. -/
theorem payment_slots_bounded (cfg : Config) (calls : List Call) (e : String) :
    ((runCalls cfg calls (initStore cfg)).payment e).card ≤ cfg.maxPaymentSlot ∧
    ((runCalls sourceConfig calls (initStore sourceConfig)).payment e).card
      ≤ MaxPaymentSlot := by
  have init : ∀ (c : Config) (e' : String), ((initStore c).payment e').card
      ≤ c.maxPaymentSlot := by
    intro c e'
    simp [initStore, seedStock_payment, emptyStore, ZSet.card, ZSet.empty]
  exact ⟨runCalls_card_le cfg calls _ (init cfg) e,
    runCalls_card_le sourceConfig calls _ (init sourceConfig) e⟩

theorem buyTicketHandler_counter_nonneg (cfg : Config) (now : Int) (f : Faults)
    (eventID userID : String) (s : Store)
    (h : ∀ e v, s.stock e = some v → 0 ≤ v) :
    ∀ e v, (buyTicketHandler cfg now f eventID userID s).2.stock e = some v → 0 ≤ v := by
  intro e v
  rcases buyTicketHandler_store_cases cfg now f eventID userID s with
    hs | hs | ⟨w, hw, hpos, _, hs⟩
  · rw [hs]; exact h e v
  · rw [hs, txWaiting_stock]; exact h e v
  · rw [hs, txPayment_stock]
    by_cases he : e = eventID
    · subst he
      rw [if_pos rfl, hw]
      intro hv
      have : w - 1 = v := by simpa using hv
      omega
    · rw [if_neg he]; exact h e v

theorem runCalls_counter_nonneg (cfg : Config) (calls : List Call) (s : Store)
    (h : ∀ e v, s.stock e = some v → 0 ≤ v) :
    ∀ e v, (runCalls cfg calls s).stock e = some v → 0 ≤ v := by
  induction calls generalizing s with
  | nil => exact h
  | cons c rest ih =>
    exact ih _ (buyTicketHandler_counter_nonneg cfg c.now c.faults c.eventID c.userID s h)

theorem seedStock_present (l : List (String × Int)) (s : Store) (e : String)
    (h : e ∈ l.map Prod.fst ∨ s.stock e ≠ none) : (seedStock l s).stock e ≠ none := by
  induction l generalizing s with
  | nil =>
    rcases h with h | h
    · simp at h
    · exact h
  | cons p l ih =>
    obtain ⟨k, t⟩ := p
    simp only [seedStock]
    apply ih
    rw [List.map_cons, List.mem_cons] at h
    by_cases he : e = k
    · right; simp [rdbSetStock, he]
    · rcases h with (h | h) | h
      · exact absurd h he
      · exact Or.inl h
      · right; simpa [rdbSetStock, he] using h

theorem buyTicketHandler_stock_present (cfg : Config) (now : Int) (f : Faults)
    (eventID userID : String) (s : Store) (e : String) (h : s.stock e ≠ none) :
    (buyTicketHandler cfg now f eventID userID s).2.stock e ≠ none := by
  rcases buyTicketHandler_store_cases cfg now f eventID userID s with
    hs | hs | ⟨w, _, _, _, hs⟩
  · rw [hs]; exact h
  · rw [hs, txWaiting_stock]; exact h
  · rw [hs, txPayment_stock]
    by_cases he : e = eventID
    · rw [if_pos he]; simp
    · rw [if_neg he]; exact h

theorem runCalls_stock_present (cfg : Config) (calls : List Call) (s : Store) (e : String)
    (h : s.stock e ≠ none) : (runCalls cfg calls s).stock e ≠ none := by
  induction calls generalizing s with
  | nil => exact h
  | cons c rest ih =>
    exact ih _ (buyTicketHandler_stock_present cfg c.now c.faults c.eventID c.userID s e h)

/-- C8: when every total stock of the registry is `>= 0`, every stock counter of
every store reached from the initial store by requests served one after another
holds a value `>= 0`, and the counter of a registered event is present. -/
theorem stock_nonneg (cfg : Config) (hpos : ∀ p ∈ cfg.events, 0 ≤ p.2) (calls : List Call)
    (e : String) :
    (∀ v, (runCalls cfg calls (initStore cfg)).stock e = some v → 0 ≤ v) ∧
    (e ∈ cfg.events.map Prod.fst →
      ∃ v, (runCalls cfg calls (initStore cfg)).stock e = some v ∧ 0 ≤ v) := by
  have hall : ∀ e v, (runCalls cfg calls (initStore cfg)).stock e = some v → 0 ≤ v := by
    apply runCalls_counter_nonneg
    apply seedStock_nonneg cfg.events hpos
    intro e v hv
    simp [emptyStore] at hv
  refine ⟨hall e, ?_⟩
  intro hmem
  have hne : (runCalls cfg calls (initStore cfg)).stock e ≠ none :=
    runCalls_stock_present cfg calls _ e (seedStock_present cfg.events emptyStore e (Or.inl hmem))
  cases hv : (runCalls cfg calls (initStore cfg)).stock e with
  | none => exact absurd hv hne
  | some v => exact ⟨v, rfl, hall e v hv⟩

/-- Instance of C8: `u1` then `u2` request event `1001`, the counter ends at 0. -/
theorem stock_nonneg_witness :
    (∀ v, (runCalls sourceConfig
        [{ eventID := "1001", userID := "u1", now := 5, faults := noFaults },
         { eventID := "1001", userID := "u2", now := 6, faults := noFaults }]
        (initStore sourceConfig)).stock "1001" = some v → 0 ≤ v) ∧
    (runCalls sourceConfig
        [{ eventID := "1001", userID := "u1", now := 5, faults := noFaults },
         { eventID := "1001", userID := "u2", now := 6, faults := noFaults }]
        (initStore sourceConfig)).stock "1001" = some 0 :=
  ⟨(stock_nonneg sourceConfig (by decide)
      [{ eventID := "1001", userID := "u1", now := 5, faults := noFaults },
       { eventID := "1001", userID := "u2", now := 6, faults := noFaults }] "1001").1,
   by decide⟩

theorem buyTicketHandler_accounting_le (cfg : Config) (now : Int) (f : Faults)
    (eventID userID : String) (s : Store) (e : String) (total : Int)
    (h : ∃ v, s.stock e = some v ∧ v + ((s.payment e).card : Int) ≤ total) :
    ∃ v, (buyTicketHandler cfg now f eventID userID s).2.stock e = some v ∧
      v + (((buyTicketHandler cfg now f eventID userID s).2.payment e).card : Int) ≤ total := by
  rcases buyTicketHandler_store_cases cfg now f eventID userID s with
    hs | hs | ⟨w, hw, _, _, hs⟩
  · rw [hs]; exact h
  · rw [hs, txWaiting_stock, txWaiting_payment]; exact h
  · rw [hs, txPayment_stock, txPayment_payment]
    by_cases he : e = eventID
    · subst he
      rw [if_pos rfl, if_pos rfl]
      obtain ⟨v, hv, hle⟩ := h
      rw [hw] at hv
      have hvw : w = v := by simpa using hv
      refine ⟨w - 1, by simp [hw], ?_⟩
      have hc := ZSet.card_add_le (s.payment e) userID (now + cfg.paymentTTL)
      omega
    · rw [if_neg he, if_neg he]; exact h

theorem buyTicketHandler_accounting_eq (cfg : Config) (now : Int) (f : Faults)
    (eventID userID : String) (s : Store) (e : String) (total : Int)
    (hnew : (s.payment eventID).mem userID = false)
    (h : ∃ v, s.stock e = some v ∧ v + ((s.payment e).card : Int) = total) :
    ∃ v, (buyTicketHandler cfg now f eventID userID s).2.stock e = some v ∧
      v + (((buyTicketHandler cfg now f eventID userID s).2.payment e).card : Int) = total := by
  rcases buyTicketHandler_store_cases cfg now f eventID userID s with
    hs | hs | ⟨w, hw, _, _, hs⟩
  · rw [hs]; exact h
  · rw [hs, txWaiting_stock, txWaiting_payment]; exact h
  · rw [hs, txPayment_stock, txPayment_payment]
    by_cases he : e = eventID
    · subst he
      rw [if_pos rfl, if_pos rfl]
      obtain ⟨v, hv, hle⟩ := h
      rw [hw] at hv
      have hvw : w = v := by simpa using hv
      refine ⟨w - 1, by simp [hw], ?_⟩
      have hc := ZSet.card_add_of_not_mem (s.payment e) userID (now + cfg.paymentTTL) hnew
      omega
    · rw [if_neg he, if_neg he]; exact h

theorem buyTicketHandler_not_mem (cfg : Config) (now : Int) (f : Faults)
    (eventID userID : String) (s : Store) (e u : String)
    (hne : (e, u) ≠ (eventID, userID)) (h : (s.payment e).mem u = false) :
    ((buyTicketHandler cfg now f eventID userID s).2.payment e).mem u = false := by
  rcases buyTicketHandler_store_cases cfg now f eventID userID s with
    hs | hs | ⟨w, _, _, _, hs⟩
  · rw [hs]; exact h
  · rw [hs, txWaiting_payment]; exact h
  · rw [hs, txPayment_payment]
    by_cases he : e = eventID
    · rw [if_pos he]
      have hu : u ≠ userID := fun hu => hne (by rw [he, hu])
      cases hm : ((s.payment e).add userID (now + cfg.paymentTTL)).mem u with
      | false => rfl
      | true =>
        rcases (ZSet.mem_add _ _ _ _).mp hm with h1 | h1
        · exact absurd h1 hu
        · rw [h] at h1; exact absurd h1 (by decide)
    · rw [if_neg he]; exact h

theorem runCalls_accounting_le (cfg : Config) (calls : List Call) (s : Store) (e : String)
    (total : Int) (h : ∃ v, s.stock e = some v ∧ v + ((s.payment e).card : Int) ≤ total) :
    ∃ v, (runCalls cfg calls s).stock e = some v ∧
      v + (((runCalls cfg calls s).payment e).card : Int) ≤ total := by
  induction calls generalizing s with
  | nil => exact h
  | cons c rest ih =>
    exact ih _ (buyTicketHandler_accounting_le cfg c.now c.faults c.eventID c.userID s e total h)

theorem runCalls_accounting_eq (cfg : Config) (calls : List Call) (s : Store) (e : String)
    (total : Int) (hnd : (calls.map Call.key).Nodup)
    (hnew : ∀ c ∈ calls, (s.payment c.eventID).mem c.userID = false)
    (h : ∃ v, s.stock e = some v ∧ v + ((s.payment e).card : Int) = total) :
    ∃ v, (runCalls cfg calls s).stock e = some v ∧
      v + (((runCalls cfg calls s).payment e).card : Int) = total := by
  induction calls generalizing s with
  | nil => exact h
  | cons c rest ih =>
    rw [List.map_cons, List.nodup_cons] at hnd
    apply ih _ hnd.2
    · intro c' hc'
      apply buyTicketHandler_not_mem
      · intro heq
        apply hnd.1
        have : c'.key = c.key := heq
        rw [← this]
        exact List.mem_map_of_mem Call.key hc'
      · exact hnew c' (List.mem_cons_of_mem _ hc')
    · exact buyTicketHandler_accounting_eq cfg c.now c.faults c.eventID c.userID s e total
        (hnew c (List.mem_cons_self _ _)) h

theorem initStore_accounting (cfg : Config) (hkeys : (cfg.events.map Prod.fst).Nodup)
    (e : String) (total : Int) (hE : eventLookup cfg.events e = some total) :
    (initStore cfg).stock e = some total ∧ ((initStore cfg).payment e).card = 0 := by
  constructor
  · simp [initStore, seedStock_stock cfg.events hkeys, hE]
  · simp [initStore, seedStock_payment, emptyStore, ZSet.card, ZSet.empty]

/-- C9 (as stated) fails: after the user `u1` has requested event `2002` twice, the
stock counter reads 18 and the payment set has one member, while the total stock
is 20. -/
theorem stock_accounting_counterexample :
    ¬ ∀ (calls : List Call) (e : String) (total v : Int),
        eventLookup sourceConfig.events e = some total →
        (runCalls sourceConfig calls (initStore sourceConfig)).stock e = some v →
        v + (((runCalls sourceConfig calls (initStore sourceConfig)).payment e).card : Int)
          = total := by
  intro h
  have h2 := h [{ eventID := "2002", userID := "u1", now := 5, faults := noFaults },
                { eventID := "2002", userID := "u1", now := 6, faults := noFaults }]
    "2002" 20 18 (by decide) (by decide)
  revert h2
  decide

/-- C9 (amended): in every store reached from the initial store by requests served
one after another, a registered event has a stock counter `v` with
`v + |payment set| <= totalStock`; the two sides are equal when no
(event, user) pair occurs twice among the requests. -/
theorem stock_accounting (cfg : Config) (hkeys : (cfg.events.map Prod.fst).Nodup)
    (calls : List Call) (e : String) (total : Int)
    (hE : eventLookup cfg.events e = some total) :
    ∃ v, (runCalls cfg calls (initStore cfg)).stock e = some v ∧
      v + (((runCalls cfg calls (initStore cfg)).payment e).card : Int) ≤ total ∧
      ((calls.map Call.key).Nodup →
        v + (((runCalls cfg calls (initStore cfg)).payment e).card : Int) = total) := by
  obtain ⟨hst, hcard⟩ := initStore_accounting cfg hkeys e total hE
  obtain ⟨v, hv, hle⟩ := runCalls_accounting_le cfg calls (initStore cfg) e total
    ⟨total, hst, by rw [hcard]; simp⟩
  refine ⟨v, hv, hle, ?_⟩
  intro hnd
  obtain ⟨v', hv', heq⟩ := runCalls_accounting_eq cfg calls (initStore cfg) e total hnd
    (by
      intro c _
      simp [initStore, seedStock_payment, emptyStore, ZSet.mem, ZSet.empty])
    ⟨total, hst, by rw [hcard]; simp⟩
  rw [hv] at hv'
  have : v = v' := by simpa using hv'
  rw [this]
  exact heq

/-- Instance of C9 (amended): `u1` then `u2` request event `2002`. -/
theorem stock_accounting_witness :
    ∃ v, (runCalls sourceConfig
        [{ eventID := "2002", userID := "u1", now := 5, faults := noFaults },
         { eventID := "2002", userID := "u2", now := 6, faults := noFaults }]
        (initStore sourceConfig)).stock "2002" = some v ∧
      v + (((runCalls sourceConfig
        [{ eventID := "2002", userID := "u1", now := 5, faults := noFaults },
         { eventID := "2002", userID := "u2", now := 6, faults := noFaults }]
        (initStore sourceConfig)).payment "2002").card : Int) = 20 := by
  obtain ⟨v, hv, _, heq⟩ := stock_accounting sourceConfig (by decide)
    [{ eventID := "2002", userID := "u1", now := 5, faults := noFaults },
     { eventID := "2002", userID := "u2", now := 6, faults := noFaults }] "2002" 20 (by decide)
  exact ⟨v, hv, heq (by decide)⟩

/-! ## Repeated requests -/

/-- With all store commands succeeding, a request for a known event and user is
paid exactly when the stock counter holds a value `> 0` and the payment set is
below capacity, and is put on the waiting list otherwise. -/
theorem buyTicketHandler_noFaults (cfg : Config) (now : Int) (eventID userID : String)
    (s : Store) (hE : eventLookup cfg.events eventID ≠ none)
    (hU : userExists cfg.users userID = true) :
    buyTicketHandler cfg now noFaults eventID userID s =
      if 0 < (s.stock eventID).getD 0 ∧ (s.payment eventID).card < cfg.maxPaymentSlot then
        (Response.payment (now + cfg.paymentTTL) cfg.paymentTTL,
         txPayment cfg s eventID userID (now + cfg.paymentTTL))
      else (Response.waiting, txWaiting s eventID userID) := by
  cases hl : eventLookup cfg.events eventID with
  | none => exact absurd hl hE
  | some t =>
    cases hst : s.stock eventID with
    | none => simp [buyTicketHandler, hl, hU, rdbGetInt, noFaults, hst, txWaiting]
    | some v =>
      by_cases hv : v ≤ 0
      · have hnv : ¬ 0 < v := not_lt.mpr hv
        simp [buyTicketHandler, hl, hU, rdbGetInt, noFaults, hst, hv, hnv, txWaiting]
      · have hpos : 0 < v := not_le.mp hv
        by_cases hc : (s.payment eventID).card < cfg.maxPaymentSlot
        · simp [buyTicketHandler, hl, hU, rdbGetInt, rdbZCard, noFaults, hst, hv, hpos, hc]
        · simp [buyTicketHandler, hl, hU, rdbGetInt, rdbZCard, noFaults, hst, hv, hpos, hc]

/-- C5 (as stated) fails: on the initial store of the compiled configuration the
first request of `u1` for event `1001` is answered `payment` and the immediately
following one `waiting`. -/
theorem requestTicket_idempotent_counterexample :
    ¬ ∀ (s : Store) (eventID userID : String) (now₁ now₂ : Int) (f₁ f₂ : Faults),
        ((requestTwice sourceConfig now₁ now₂ f₁ f₂ eventID userID s).1.1.status = some "waiting" ∨
         (requestTwice sourceConfig now₁ now₂ f₁ f₂ eventID userID s).1.1.status
            = some "payment") →
        (requestTwice sourceConfig now₁ now₂ f₁ f₂ eventID userID s).2.1.status
            = (requestTwice sourceConfig now₁ now₂ f₁ f₂ eventID userID s).1.1.status ∧
        (requestTwice sourceConfig now₁ now₂ f₁ f₂ eventID userID s).2.2.stock eventID
            = (requestTwice sourceConfig now₁ now₂ f₁ f₂ eventID userID s).1.2.stock eventID ∧
        (requestTwice sourceConfig now₁ now₂ f₁ f₂ eventID userID s).2.2.waiting eventID
            = (requestTwice sourceConfig now₁ now₂ f₁ f₂ eventID userID s).1.2.waiting
                eventID := by
  intro h
  have h2 := (h (initStore sourceConfig) "1001" "u1" 5 6 noFaults noFaults
    (Or.inr (by decide))).1
  revert h2
  decide

/-- C5 (amended): with all store commands succeeding, let `second` be the outcome
of a request served immediately after the same request with outcome `first`.
If `first` answered `waiting`, `second` answers `waiting` too and leaves every stock
counter and payment set as they were, while the user is appended to the waiting
list once more.  If `first` answered `payment`, the user is still the same single
member of the payment set after `second` (the cardinality is unchanged), and
`second` either answers `payment` again, which happens only with a stock counter
still `> 0` and decrements it once more, or answers `waiting` and appends the user
to the waiting list with the stock counter untouched. -/
theorem requestTicket_repeat (cfg : Config) (now₁ now₂ : Int) (eventID userID : String)
    (s : Store) (first second : Response × Store)
    (h : requestTwice cfg now₁ now₂ noFaults noFaults eventID userID s = (first, second)) :
    (first.1 = Response.waiting →
      second.1 = Response.waiting ∧ second.2.stock = first.2.stock ∧
      second.2.payment = first.2.payment ∧
      second.2.waiting eventID = first.2.waiting eventID ++ [userID]) ∧
    (first.1.status = some "payment" →
      (second.2.payment eventID).mem userID = true ∧
      (second.2.payment eventID).card = (first.2.payment eventID).card ∧
      ((second.1 = Response.payment (now₂ + cfg.paymentTTL) cfg.paymentTTL ∧
          (∃ v, first.2.stock eventID = some v ∧ 0 < v ∧
            second.2.stock eventID = some (v - 1)) ∧
          second.2.waiting = first.2.waiting) ∨
       (second.1 = Response.waiting ∧ second.2.stock = first.2.stock ∧
          second.2.waiting eventID = first.2.waiting eventID ++ [userID]))) := by
  simp only [requestTwice, Prod.mk.injEq] at h
  obtain ⟨h1, h2⟩ := h
  subst h1
  subst h2
  cases hE : eventLookup cfg.events eventID with
  | none => simp [buyTicketHandler, hE, Response.status]
  | some t =>
    cases hU : userExists cfg.users userID with
    | false => simp [buyTicketHandler, hE, hU, Response.status]
    | true =>
      have hE' : eventLookup cfg.events eventID ≠ none := by simp [hE]
      have hfirst := buyTicketHandler_noFaults cfg now₁ eventID userID s hE' hU
      by_cases hc : 0 < (s.stock eventID).getD 0 ∧ (s.payment eventID).card < cfg.maxPaymentSlot
      · rw [if_pos hc] at hfirst
        rw [hfirst]
        have hsecond := buyTicketHandler_noFaults cfg now₂ eventID userID
          (txPayment cfg s eventID userID (now₁ + cfg.paymentTTL)) hE' hU
        have hmem : ((txPayment cfg s eventID userID (now₁ + cfg.paymentTTL)).payment
            eventID).mem userID = true := by
          rw [txPayment_payment, if_pos rfl]
          exact (ZSet.mem_add _ _ _ _).mpr (Or.inl rfl)
        refine ⟨fun hw => by simp at hw, fun _ => ?_⟩
        by_cases hc2 : 0 < ((txPayment cfg s eventID userID (now₁ + cfg.paymentTTL)).stock
              eventID).getD 0 ∧
            ((txPayment cfg s eventID userID (now₁ + cfg.paymentTTL)).payment eventID).card
              < cfg.maxPaymentSlot
        · rw [if_pos hc2] at hsecond
          dsimp only
          rw [hsecond]
          refine ⟨?_, ?_, Or.inl ⟨rfl, ?_, rfl⟩⟩
          · rw [txPayment_payment, if_pos rfl]
            exact (ZSet.mem_add _ _ _ _).mpr (Or.inl rfl)
          · rw [txPayment_payment, if_pos rfl]
            exact ZSet.card_add_of_mem _ _ _ hmem
          · cases hst : (txPayment cfg s eventID userID (now₁ + cfg.paymentTTL)).stock
                eventID with
            | none => simp [hst] at hc2
            | some v =>
              refine ⟨v, rfl, by simpa [hst] using hc2.1, ?_⟩
              rw [txPayment_stock, if_pos rfl, hst]
              rfl
        · rw [if_neg hc2] at hsecond
          dsimp only
          rw [hsecond]
          exact ⟨hmem, rfl, Or.inr ⟨rfl, rfl, by simp [txWaiting_waiting]⟩⟩
      · rw [if_neg hc] at hfirst
        rw [hfirst]
        have hsecond := buyTicketHandler_noFaults cfg now₂ eventID userID
          (txWaiting s eventID userID) hE' hU
        rw [txWaiting_stock, txWaiting_payment, if_neg hc] at hsecond
        dsimp only
        rw [hsecond]
        refine ⟨fun _ => ⟨rfl, rfl, rfl, by simp [txWaiting_waiting]⟩, fun hp => ?_⟩
        simp [Response.status] at hp

/-- Instance of C5 (amended): `u1` requests event `2002` twice on the initial store. -/
theorem requestTicket_repeat_witness :
    (buyTicketHandler sourceConfig 6 noFaults "2002" "u1"
        (buyTicketHandler sourceConfig 5 noFaults "2002" "u1" (initStore sourceConfig)).2).1
      = Response.payment (6 + sourceConfig.paymentTTL) sourceConfig.paymentTTL ∨
    (buyTicketHandler sourceConfig 6 noFaults "2002" "u1"
        (buyTicketHandler sourceConfig 5 noFaults "2002" "u1" (initStore sourceConfig)).2).1
      = Response.waiting := by
  have h := (requestTicket_repeat sourceConfig 5 6 "2002" "u1" (initStore sourceConfig)
    _ _ rfl).2 (by decide)
  rcases h.2.2 with h3 | h3
  · exact Or.inl h3.1
  · exact Or.inr h3.1

/-! ## Two requests in flight -/

/-- C10 (behaviour of the code): on the initial store of the compiled
configuration, where event `1001` has total stock 1 and empty payment set and
waiting list, the handlers of `u1` and `u2` issue their store commands alternately
(both read the stock, both read the cardinality, both execute their transaction):
both are answered `payment`, the stock counter ends at -1, both users are in the
payment set and the waiting list stays empty.  Served one after the other, the
first is answered `payment`, the second `waiting`, and the counter ends at 0. -/
theorem concurrent_requests_oversell :
    eventLookup sourceConfig.events "1001" = some 1 ∧
    ((initStore sourceConfig).payment "1001").card = 0 ∧
    (initStore sourceConfig).waiting "1001" = [] ∧
    (runSchedule sourceConfig
        { eventID := "1001", userID := "u1", now := 5, faults := noFaults }
        { eventID := "1001", userID := "u2", now := 5, faults := noFaults }
        [false, true, false, true, false, true]
        { pcA := Pc.start, pcB := Pc.start, store := initStore sourceConfig }).pcA
      = Pc.done (Response.payment 305 300) ∧
    (runSchedule sourceConfig
        { eventID := "1001", userID := "u1", now := 5, faults := noFaults }
        { eventID := "1001", userID := "u2", now := 5, faults := noFaults }
        [false, true, false, true, false, true]
        { pcA := Pc.start, pcB := Pc.start, store := initStore sourceConfig }).pcB
      = Pc.done (Response.payment 305 300) ∧
    (runSchedule sourceConfig
        { eventID := "1001", userID := "u1", now := 5, faults := noFaults }
        { eventID := "1001", userID := "u2", now := 5, faults := noFaults }
        [false, true, false, true, false, true]
        { pcA := Pc.start, pcB := Pc.start, store := initStore sourceConfig }).store.stock "1001"
      = some (-1) ∧
    ((runSchedule sourceConfig
        { eventID := "1001", userID := "u1", now := 5, faults := noFaults }
        { eventID := "1001", userID := "u2", now := 5, faults := noFaults }
        [false, true, false, true, false, true]
        { pcA := Pc.start, pcB := Pc.start, store := initStore sourceConfig }).store.payment
          "1001").card = 2 ∧
    (runSchedule sourceConfig
        { eventID := "1001", userID := "u1", now := 5, faults := noFaults }
        { eventID := "1001", userID := "u2", now := 5, faults := noFaults }
        [false, true, false, true, false, true]
        { pcA := Pc.start, pcB := Pc.start, store := initStore sourceConfig }).store.waiting
          "1001" = [] ∧
    (runSchedule sourceConfig
        { eventID := "1001", userID := "u1", now := 5, faults := noFaults }
        { eventID := "1001", userID := "u2", now := 5, faults := noFaults }
        [false, false, false, true, true, true]
        { pcA := Pc.start, pcB := Pc.start, store := initStore sourceConfig }).pcA
      = Pc.done (Response.payment 305 300) ∧
    (runSchedule sourceConfig
        { eventID := "1001", userID := "u1", now := 5, faults := noFaults }
        { eventID := "1001", userID := "u2", now := 5, faults := noFaults }
        [false, false, false, true, true, true]
        { pcA := Pc.start, pcB := Pc.start, store := initStore sourceConfig }).pcB
      = Pc.done Response.waiting ∧
    (runSchedule sourceConfig
        { eventID := "1001", userID := "u1", now := 5, faults := noFaults }
        { eventID := "1001", userID := "u2", now := 5, faults := noFaults }
        [false, false, false, true, true, true]
        { pcA := Pc.start, pcB := Pc.start, store := initStore sourceConfig }).store.stock "1001"
      = some 0 := by
  decide

end GoQueue
